import Mathlib

/-!
Verification development for the `iex_data` market-data client
(`src/iex_data.py`).  The Python module is shallowly embedded: JSON values
become an inductive type, pandas dataframes become a `DF` structure
(column list, row list, index), and each method of the `API` class becomes
a function in a small effect type `Proc` that records the URLs fetched and
the messages printed, returning `Except Err` results so that raised Python
exceptions are modelled by propagated errors.
-/

set_option autoImplicit false
set_option maxHeartbeats 1000000

/-- Calendar timestamps, the model of `pandas.Timestamp` values produced by
`pd.to_datetime` (second precision plus a millisecond remainder; timezone
offsets are not tracked). -/
structure Timestamp where
  year : Int
  month : Int
  day : Int
  hour : Int
  minute : Int
  second : Int
  msec : Int
deriving DecidableEq, Repr

/-- JSON values, the model of the Python objects obtained from
`json.loads`, extended with the `ts` constructor for decoded pandas
timestamps stored back into a dataframe cell. -/
inductive Json where
  | null : Json
  | bool (b : Bool) : Json
  | num (n : Int) : Json
  | str (s : String) : Json
  | ts (t : Timestamp) : Json
  | arr (xs : List Json) : Json
  | obj (fields : List (String × Json)) : Json

/-- Errors: every Python exception the module can raise or propagate.
`transport` covers `urlopen`/HTTP/`json.loads` failures of a given URL,
`keyError` a missing dict key or dataframe column, `valueError` a failed
value conversion (`pd.to_datetime`, `json_normalize` on non-records). -/
inductive Err where
  | transport (url : String) : Err
  | keyError (key : String) : Err
  | valueError (msg : String) : Err
deriving DecidableEq, Repr

/-- Conversion of an epoch value in milliseconds to a calendar timestamp,
the model of `pd.to_datetime(v, unit='ms')` (civil-from-days algorithm,
proleptic Gregorian calendar). -/
def tsFromMs (ms : Int) : Timestamp :=
  let s := ms.ediv 1000
  let msec := ms.emod 1000
  let days := s.ediv 86400
  let secOfDay := s.emod 86400
  let z := days + 719468
  let era := z.ediv 146097
  let doe := z.emod 146097
  let yoe := (doe - doe.ediv 1460 + doe.ediv 36524 - doe.ediv 146096).ediv 365
  let doy := doe - (365 * yoe + yoe.ediv 4 - yoe.ediv 100)
  let mp := (5 * doy + 2).ediv 153
  let d := doy - (153 * mp + 2).ediv 5 + 1
  let m := if mp < 10 then mp + 3 else mp - 9
  let y := yoe + era * 400 + (if m ≤ 2 then 1 else 0)
  { year := y, month := m, day := d,
    hour := secOfDay.ediv 3600, minute := (secOfDay.emod 3600).ediv 60,
    second := secOfDay.emod 60, msec := msec }

/-- Split a character list at every occurrence of a separator. -/
def splitChar (c : Char) : List Char → List (List Char)
  | [] => [[]]
  | ch :: t =>
    match splitChar c t with
    | [] => [[ch]]
    | cur :: rest =>
      if ch == c then [] :: cur :: rest else (ch :: cur) :: rest

/-- Decimal digits to a number, `none` for an empty or non-digit group. -/
def digitsToNat (ds : List Char) : Option Nat :=
  if ds = [] then none
  else
    ds.foldl (fun acc ch =>
      match acc with
      | none => none
      | some n => if ch.isDigit then some (n * 10 + (ch.toNat - 48)) else none)
      (some 0)

/-- Parse one separator-delimited group of three numeric components. -/
def parseThree (sep : Char) (cs : List Char) (msg : String) :
    Except Err (Int × Int × Int) :=
  match splitChar sep cs with
  | [g1, g2, g3] =>
    match digitsToNat g1, digitsToNat g2, digitsToNat g3 with
    | some a, some b, some c => .ok ((a : Int), (b : Int), (c : Int))
    | _, _, _ => .error (.valueError msg)
  | _ => .error (.valueError msg)

/-- Parse an ISO-style datetime string, the model of `pd.to_datetime` on
the string values the news endpoint returns (`YYYY-MM-DD` optionally
followed by `THH:MM:SS`; a trailing timezone offset is ignored, matching
the second-precision `Timestamp` model). -/
def parseIso (s : String) : Except Err Timestamp :=
  match splitChar 'T' (s.data.take 19) with
  | [d] =>
    match parseThree '-' d s with
    | .ok (y, mo, da) => .ok ⟨y, mo, da, 0, 0, 0, 0⟩
    | .error e => .error e
  | [d, t] =>
    match parseThree '-' d s, parseThree ':' t s with
    | .ok (y, mo, da), .ok (h, mi, se) => .ok ⟨y, mo, da, h, mi, se, 0⟩
    | .error e, _ => .error e
    | _, .error e => .error e
  | _ => .error (.valueError s)

/-- Cell-level model of `pd.to_datetime(column, unit='ms')`: numeric epoch
milliseconds decode to a timestamp, missing values (NaN) stay missing,
anything else raises. -/
def toDatetimeMs (v : Json) : Except Err Json :=
  match v with
  | .num n => .ok (.ts (tsFromMs n))
  | .null => .ok .null
  | _ => .error (.valueError "to_datetime")

/-- Cell-level model of `pd.to_datetime(column)` on ISO datetime strings. -/
def toDatetimeIso (v : Json) : Except Err Json :=
  match v with
  | .str s =>
    match parseIso s with
    | .ok t => .ok (.ts t)
    | .error e => .error e
  | .ts t => .ok (.ts t)
  | .null => .ok .null
  | _ => .error (.valueError "to_datetime")

/-- Python equality between a JSON cell and a string (used by the
`x in set(valid_securities)` membership test, where `x` is a `str`). -/
def jsonEqStr (v : Json) (x : String) : Bool :=
  match v with
  | .str s => s == x
  | _ => false

/-- Lookup in an association list of JSON fields (Python dict indexing and
row-cell lookup share this; keys are unique in both). -/
def lookupField : List (String × Json) → String → Option Json
  | [], _ => none
  | (k, v) :: t, c => if k == c then some v else lookupField t c

/-- `data[k]` on a parsed JSON value: only dicts support string keys. -/
def getKey (j : Json) (k : String) : Option Json :=
  match j with
  | .obj fs => lookupField fs k
  | _ => none

/-- A dataframe row: ordered association list from column name to cell. -/
abbrev Row := List (String × Json)

/-- Cell of a row at a column, `Json.null` (NaN) when the row lacks it. -/
def rowVal (r : Row) (c : String) : Json :=
  match lookupField r c with
  | some v => v
  | none => .null

/-- Assign a cell: update the existing entry in place, or add the column
at the end of the row (pandas appends new columns on assignment). -/
def rowSetVal : Row → String → Json → Row
  | [], c, v => [(c, v)]
  | (k, w) :: t, c, v => if k == c then (k, v) :: t else (k, w) :: rowSetVal t c v

/-- Remove a column from a row (`del df[c]` and `set_index` use this). -/
def rowDropKey : Row → String → Row
  | [], _ => []
  | (k, w) :: t, c => if k == c then rowDropKey t c else (k, w) :: rowDropKey t c

/-- Sequential `Except`-valued map: first error wins, mirroring a Python
loop that raises at the first bad element. -/
def mapME {α β : Type} (f : α → Except Err β) : List α → Except Err (List β)
  | [] => .ok []
  | a :: l =>
    match f a with
    | .error e => .error e
    | .ok b =>
      match mapME f l with
      | .error e => .error e
      | .ok l2 => .ok (b :: l2)

/-- Append a column name if not already present. -/
def insertCol (cs : List String) (c : String) : List String :=
  if cs.contains c then cs else cs ++ [c]

/-- Union of column-name lists in first-appearance order. -/
def unionCols (cs ds : List String) : List String :=
  ds.foldl insertCol cs

/-- Column names of a row set in first-appearance order, the way
`json_normalize` assembles a dataframe's columns. -/
def rowsCols (rows : List Row) : List String :=
  rows.foldl (fun cs r => unionCols cs (r.map Prod.fst)) []

mutual

/-- `json_normalize` flattening of one field value under a prefixed key:
a nested dict recurses with a dotted compound name, every other value
stays a single cell. -/
def flattenValue (pre k : String) : Json → Row
  | Json.obj gs => flattenFields (pre ++ k ++ ".") gs
  | v => [(pre ++ k, v)]

/-- `json_normalize` row flattening of a dict's fields: nested dicts
produce dotted compound column names. -/
def flattenFields (pre : String) : List (String × Json) → Row
  | [] => []
  | (k, v) :: rest => flattenValue pre k v ++ flattenFields pre rest

end

/-- `json_normalize(data)` row construction: a dict gives one row, a list
of dicts one row per element, anything else raises. -/
def jsonNormalizeRows (j : Json) : Except Err (List Row)
  :=
  match j with
  | .obj fs => .ok [flattenFields "" fs]
  | .arr xs =>
    mapME (fun x =>
      match x with
      | .obj fs => .ok (flattenFields "" fs)
      | _ => .error (.valueError "json_normalize")) xs
  | _ => .error (.valueError "json_normalize")

/-- Dataframes: an optional index name, index labels, table-level ordered
column list, and the rows. Cells missing from a row but present in `cols`
read as `Json.null` (NaN). -/
structure DF where
  idxName : Option String
  idx : List Json
  cols : List String
  rows : List Row

/-- `pd.DataFrame({})`. -/
def emptyDF : DF := { idxName := none, idx := [], cols := [], rows := [] }

/-- Fresh dataframe over a row set with the default range index. -/
def dfOfRows (rows : List Row) : DF :=
  { idxName := none,
    idx := (List.range rows.length).map (fun i => Json.num i),
    cols := rowsCols rows,
    rows := rows }

/-- Column read `df[c]`: the cell list, or a `KeyError`. -/
def DF.getCol (df : DF) (c : String) : Except Err (List Json) :=
  if df.cols.contains c then .ok (df.rows.map (fun r => rowVal r c))
  else .error (.keyError c)

/-- Positional column assignment `df[c] = series`. -/
def DF.setCol (df : DF) (c : String) (vs : List Json) : DF :=
  { df with cols := insertCol df.cols c,
            rows := (df.rows.zip vs).map (fun rv => rowSetVal rv.1 c rv.2) }

/-- Scalar column assignment `df[c] = v` (broadcast to every row). -/
def DF.setColScalar (df : DF) (c : String) (v : Json) : DF :=
  { df with cols := insertCol df.cols c,
            rows := df.rows.map (fun r => rowSetVal r c v) }

/-- `df[c] = f(df[c])`: read the column, convert every cell, write back. -/
def DF.mapCol (df : DF) (c : String) (f : Json → Except Err Json) :
    Except Err DF :=
  match df.getCol c with
  | .error e => .error e
  | .ok vs =>
    match mapME f vs with
    | .error e => .error e
    | .ok ws => .ok (df.setCol c ws)

/-- `del df[c]`. -/
def DF.delCol (df : DF) (c : String) : Except Err DF :=
  if df.cols.contains c then
    .ok { df with cols := df.cols.filter (fun x => x != c),
                  rows := df.rows.map (fun r => rowDropKey r c) }
  else .error (.keyError c)

/-- Column selection / reordering `df[[c1, ..., cn]]`. -/
def DF.selectCols (df : DF) (cs : List String) : Except Err DF :=
  match cs.find? (fun c => !(df.cols.contains c)) with
  | some c => .error (.keyError c)
  | none =>
    .ok { df with cols := cs,
                  rows := df.rows.map (fun r => cs.map (fun c => (c, rowVal r c))) }

/-- `df.set_index([c], inplace=True)`: the column becomes the row key. -/
def DF.setIndex (df : DF) (c : String) : Except Err DF :=
  match df.getCol c with
  | .error e => .error e
  | .ok vs =>
    .ok { idxName := some c, idx := vs,
          cols := df.cols.filter (fun x => x != c),
          rows := df.rows.map (fun r => rowDropKey r c) }

/-- `final_df.append(df, ignore_index=True)`: rows concatenated, columns
unioned in order, the index reset to a fresh range. -/
def DF.appendDF (df other : DF) : DF :=
  { idxName := none,
    idx := (List.range (df.rows.length + other.rows.length)).map
      (fun i => Json.num i),
    cols := unionCols df.cols other.cols,
    rows := df.rows ++ other.rows }

/-- Observable effects of a call: the URLs fetched (in order) and the
messages printed. -/
structure Eff where
  urls : List String
  prints : List String
deriving DecidableEq, Repr

/-- No effects yet. -/
def Eff.init : Eff := { urls := [], prints := [] }

/-- The network: what each URL's GET + `json.loads` yields. An `.error`
models a network failure, a non-2xx response or malformed JSON. -/
def Net : Type := String → Except Err Json

/-- Effectful computations: thread the effect log, stop at the first
raised error (Python exception propagation). -/
def Proc (α : Type) : Type := Eff → Eff × Except Err α

/-- Return a pure value. -/
def mPure {α : Type} (a : α) : Proc α := fun eff => (eff, .ok a)

/-- Sequencing: an error in the first action skips the continuation. -/
def mBind {α β : Type} (x : Proc α) (f : α → Proc β) : Proc β := fun eff =>
  match x eff with
  | (eff1, .ok a) => f a eff1
  | (eff1, .error e) => (eff1, .error e)

/-- Lift a pure `Except` result (no effect). -/
def liftE {α : Type} (x : Except Err α) : Proc α := fun eff => (eff, x)

/-- `urlopen(Request(url)).read()` + `json.loads`: log the URL, return
whatever the network yields for it. -/
def fetchJson (net : Net) (url : String) : Proc Json :=
  fun eff => ({ eff with urls := eff.urls ++ [url] }, net url)

/-- `print(msg)`. -/
def printMsg (msg : String) : Proc Unit :=
  fun eff => ({ eff with prints := eff.prints ++ [msg] }, .ok ())

/-- Run a computation from the empty effect log. -/
def runP {α : Type} (x : Proc α) : Eff × Except Err α := x Eff.init

/-- `self._end_point_prefix`. -/
def endPointUrl : String := "https://api.iextrading.com/1.0/"

/-- URL of the reference-data symbol list. -/
def refDataUrl : String := endPointUrl ++ "ref-data/symbols"

/-- The diagnostic every operation prints when no symbol validates. -/
def invalidMsg : String := "These stock(s) are invalid!"

/-- `API._url_to_dataframe(url, nest)`: GET the URL, parse, optionally
take the nested key (a `KeyError` if absent or the value is not a dict),
and `json_normalize` the result into a dataframe. -/
def url_to_dataframe (net : Net) (url : String) (nest : Option String) :
    Proc DF :=
  mBind (fetchJson net url) (fun data =>
    match nest with
    | some k =>
      match getKey data k with
      | some v => liftE ((jsonNormalizeRows v).map dfOfRows)
      | none => liftE (.error (.keyError k))
    | none => liftE ((jsonNormalizeRows data).map dfOfRows))

/-- `API.return_valid_securities(securities)`: fetch the reference list,
read its `symbol` column, and keep the requested symbols that appear in
it (a Python set-membership test), in their original order. -/
def return_valid_securities (net : Net) (securities : List String) :
    Proc (List String) :=
  mBind (url_to_dataframe net (endPointUrl ++ "ref-data/symbols") none)
    (fun df =>
      mBind (liftE (df.getCol "symbol")) (fun valid =>
        mPure (securities.filter (fun x => valid.any (fun v => jsonEqStr v x)))))

/-- The shared shape of all six public operations: validate, then either
run the endpoint-specific body on the valid symbols, or print the
diagnostic and return `None`. -/
def opTemplate (v : Proc (List String)) (body : List String → Proc DF) :
    Proc (Option DF) :=
  mBind v (fun valid =>
    if valid = [] then mBind (printMsg invalidMsg) (fun _ => mPure none)
    else mBind (body valid) (fun df => mPure (some df)))

/-- Body of `get_latest_quote_and_trade`: one batched GET of `tops`,
decode the two epoch-millisecond fields, index by symbol. -/
def quoteCore (net : Net) (securities : List String) : Proc DF :=
  mBind (url_to_dataframe net
      (endPointUrl ++ "tops?symbols=" ++ String.intercalate "," securities)
      none) (fun df =>
    mBind (liftE (df.mapCol "lastSaleTime" toDatetimeMs)) (fun df =>
      mBind (liftE (df.mapCol "lastUpdated" toDatetimeMs)) (fun df =>
        liftE (df.setIndex "symbol"))))

/-- `API.get_latest_quote_and_trade(securities)`. -/
def get_latest_quote_and_trade (net : Net) (securities : List String) :
    Proc (Option DF) :=
  opTemplate (return_valid_securities net securities) (quoteCore net)

/-- Body of `get_latest_trade`: one batched GET of `tops/last`, decode
the epoch-millisecond `time` field, index by symbol. -/
def tradeCore (net : Net) (securities : List String) : Proc DF :=
  mBind (url_to_dataframe net
      (endPointUrl ++ "tops/last?symbols=" ++ String.intercalate "," securities)
      none) (fun df =>
    mBind (liftE (df.mapCol "time" toDatetimeMs)) (fun df =>
      liftE (df.setIndex "symbol")))

/-- `API.get_latest_trade(securities)`. -/
def get_latest_trade (net : Net) (securities : List String) :
    Proc (Option DF) :=
  opTemplate (return_valid_securities net securities) (tradeCore net)

/-- URL of the news endpoint for one symbol. -/
def newsUrl (count : Nat) (symbol : String) : String :=
  endPointUrl ++ "stock/" ++ symbol ++ "/news/last/" ++ toString count

/-- The fixed news column order. -/
def newsColumns : List String :=
  ["symbol", "time", "headline", "summary", "source", "url", "related"]

/-- One iteration of the `get_latest_news` loop: fetch, decode the
`datetime` field into a new `time` column, delete `datetime`, tag the
symbol, reorder the columns. -/
def newsStep (net : Net) (count : Nat) (symbol : String) : Proc DF :=
  mBind (url_to_dataframe net (newsUrl count symbol) none) (fun df =>
    mBind (liftE (df.getCol "datetime")) (fun raw =>
      mBind (liftE (mapME toDatetimeIso raw)) (fun decoded =>
        mBind (liftE ((df.setCol "time" decoded).delCol "datetime"))
          (fun df =>
            liftE ((df.setColScalar "symbol" (.str symbol)).selectCols
              newsColumns)))))

/-- Per-symbol accumulation loop shared by the four iterating
operations: run the step for each symbol and append its dataframe. -/
def accumLoop (step : String → Proc DF) : List String → DF → Proc DF
  | [], acc => mPure acc
  | symbol :: rest, acc =>
      mBind (step symbol) (fun df => accumLoop step rest (acc.appendDF df))

/-- `API.get_latest_news(securities, count)`. -/
def get_latest_news (net : Net) (securities : List String) (count : Nat) :
    Proc (Option DF) :=
  opTemplate (return_valid_securities net securities)
    (fun valid => accumLoop (newsStep net count) valid emptyDF)

/-- URL of the financials endpoint for one symbol. -/
def financialsUrl (symbol : String) : String :=
  endPointUrl ++ "stock/" ++ symbol ++ "/financials"

/-- One iteration of the `get_financials` loop: fetch with the
`financials` nested key, tag the symbol. -/
def financialsStep (net : Net) (symbol : String) : Proc DF :=
  mBind (url_to_dataframe net (financialsUrl symbol) (some "financials"))
    (fun df => mPure (df.setColScalar "symbol" (.str symbol)))

/-- `API.get_financials(securities)`. -/
def get_financials (net : Net) (securities : List String) :
    Proc (Option DF) :=
  opTemplate (return_valid_securities net securities)
    (fun valid => accumLoop (financialsStep net) valid emptyDF)

/-- URL of the earnings endpoint for one symbol. -/
def earningsUrl (symbol : String) : String :=
  endPointUrl ++ "stock/" ++ symbol ++ "/earnings"

/-- One iteration of the `get_earnings` loop. -/
def earningsStep (net : Net) (symbol : String) : Proc DF :=
  mBind (url_to_dataframe net (earningsUrl symbol) (some "earnings"))
    (fun df => mPure (df.setColScalar "symbol" (.str symbol)))

/-- `API.get_earnings(securities)`. -/
def get_earnings (net : Net) (securities : List String) :
    Proc (Option DF) :=
  opTemplate (return_valid_securities net securities)
    (fun valid => accumLoop (earningsStep net) valid emptyDF)

/-- URL of the chart endpoint for one symbol and bucket. -/
def chartUrl (symbol bucket : String) : String :=
  endPointUrl ++ "stock/" ++ symbol ++ "/chart/" ++ bucket

/-- One iteration of the `get_trade_bars_data` loop: fetch the chart
(no nested key, no timestamp decoding), tag the symbol. -/
def barsStep (net : Net) (bucket : String) (symbol : String) : Proc DF :=
  mBind (url_to_dataframe net (chartUrl symbol bucket) none)
    (fun df => mPure (df.setColScalar "symbol" (.str symbol)))

/-- `API.get_trade_bars_data(securities, bucket)`. -/
def get_trade_bars_data (net : Net) (securities : List String)
    (bucket : String) : Proc (Option DF) :=
  opTemplate (return_valid_securities net securities)
    (fun valid => accumLoop (barsStep net bucket) valid emptyDF)

/-- The reference list as read by the validator: the `symbol` column of
the normalized reference-data response. -/
def referenceSymbols (net : Net) : Except Err (List Json) :=
  match net refDataUrl with
  | .error e => .error e
  | .ok j =>
    match (jsonNormalizeRows j).map dfOfRows with
    | .error e => .error e
    | .ok df => df.getCol "symbol"

/-- Rows the module would build from a GET of `url` with no nested key:
the normalized response, or the propagated fetch error. -/
def rawRows (net : Net) (url : String) : Except Err (List Row) :=
  match net url with
  | .error e => .error e
  | .ok j => jsonNormalizeRows j

/-- Rows of the batched `tops` response for a joined symbol string. -/
def topsRawRows (net : Net) (symbols : String) : Except Err (List Row) :=
  rawRows net (endPointUrl ++ "tops?symbols=" ++ symbols)

/-- Rows of the batched `tops/last` response for a joined symbol string. -/
def tradeRawRows (net : Net) (symbols : String) : Except Err (List Row) :=
  rawRows net (endPointUrl ++ "tops/last?symbols=" ++ symbols)

/-- Rows of the news response for one symbol. -/
def newsRawRows (net : Net) (count : Nat) (symbol : String) :
    Except Err (List Row) :=
  rawRows net (newsUrl count symbol)

/-- Rows of the chart response for one symbol and bucket. -/
def chartRawRows (net : Net) (symbol bucket : String) :
    Except Err (List Row) :=
  rawRows net (chartUrl symbol bucket)

/-- Rows found under a nested key of a response (financials/earnings). -/
def nestedRows (net : Net) (url key : String) : Except Err (List Row) :=
  match net url with
  | .error e => .error e
  | .ok j =>
    match getKey j key with
    | some v => jsonNormalizeRows v
    | none => .error (.keyError key)

/-- Length of the array found under a nested key of a response, when the
response is a dict whose value at the key is an array. -/
def nestedArrLen (net : Net) (url key : String) : Option Nat :=
  match net url with
  | .error _ => none
  | .ok j =>
    match getKey j key with
    | some (.arr xs) => some xs.length
    | _ => none

/-- A reference-list response holding the symbols AAPL and IBM, used by
the concrete networks below. -/
def refJsonDemo : Json :=
  .arr [.obj [("symbol", .str "AAPL")], .obj [("symbol", .str "IBM")]]

/-- A small fixed network: the reference list above plus one well-formed
response per endpoint for AAPL; every other URL fails. -/
def netDemo : Net := fun url =>
  if url = refDataUrl then .ok refJsonDemo
  else if url = endPointUrl ++ "tops?symbols=AAPL" then
    .ok (.arr [.obj [("symbol", .str "AAPL"),
                     ("lastSaleTime", .num 1500000000000),
                     ("lastUpdated", .num 1500000000000)]])
  else if url = endPointUrl ++ "tops/last?symbols=AAPL" then
    .ok (.arr [.obj [("symbol", .str "AAPL"),
                     ("time", .num 1500000000000)]])
  else if url = newsUrl 1 "AAPL" then
    .ok (.arr [.obj [("datetime", .str "2017-07-14T02:40:00-04:00"),
                     ("headline", .str "h"), ("summary", .str "sm"),
                     ("source", .str "src"), ("url", .str "u"),
                     ("related", .str "r")]])
  else if url = financialsUrl "AAPL" then
    .ok (.obj [("financials",
      .arr [.obj [("reportDate", .str "2017-06-30")],
            .obj [("reportDate", .str "2017-03-31")]])])
  else if url = earningsUrl "AAPL" then
    .ok (.obj [("earnings", .arr [.obj [("actualEPS", .num 2)]])])
  else if url = chartUrl "AAPL" "1y" then
    .ok (.arr [.obj [("date", .str "2017-07-13"), ("close", .num 100)],
               .obj [("date", .str "2017-07-14"), ("close", .num 101)]])
  else .error (.transport url)

/-- A network on which every fetch fails. -/
def netDown : Net := fun url => .error (.transport url)

/-- A network whose chart response for AAPL carries an epoch-millisecond
field, to exhibit that bar outputs are returned undecoded. -/
def netBars : Net := fun url =>
  if url = refDataUrl then .ok refJsonDemo
  else if url = chartUrl "AAPL" "1m" then
    .ok (.arr [.obj [("time", .num 1500000000000)]])
  else .error (.transport url)

/-! ### Basic lemmas about the effect type -/

theorem mBind_of_ok {α β : Type} {x : Proc α} {f : α → Proc β} {eff eff1 : Eff}
    {a : α} (h : x eff = (eff1, .ok a)) : mBind x f eff = f a eff1 := by
  simp [mBind, h]

theorem mBind_of_error {α β : Type} {x : Proc α} {f : α → Proc β} {eff eff1 : Eff}
    {e : Err} (h : x eff = (eff1, .error e)) : mBind x f eff = (eff1, .error e) := by
  simp [mBind, h]

theorem mBind_snd_ok {α β : Type} {x : Proc α} {f : α → Proc β} {eff : Eff}
    {b : β} (h : (mBind x f eff).2 = .ok b) :
    ∃ a eff1, x eff = (eff1, .ok a) ∧ (f a eff1).2 = .ok b := by
  unfold mBind at h
  rcases hx : x eff with ⟨eff1, r⟩
  cases r with
  | ok a => exact ⟨a, eff1, rfl, by rw [hx] at h; exact h⟩
  | error e => rw [hx] at h; simp at h

/-! ### Row-level lemmas -/

theorem lookupField_rowSetVal_self (r : Row) (c : String) (v : Json) :
    lookupField (rowSetVal r c v) c = some v := by
  induction r with
  | nil => simp [rowSetVal, lookupField]
  | cons p t ih =>
    rcases p with ⟨k, w⟩
    by_cases hk : k = c
    · subst hk; simp [rowSetVal, lookupField]
    · simp [rowSetVal, lookupField, hk, ih]

theorem lookupField_rowSetVal_ne (r : Row) (c c2 : String) (v : Json)
    (h : c2 ≠ c) : lookupField (rowSetVal r c v) c2 = lookupField r c2 := by
  induction r with
  | nil =>
    have : ¬ (c == c2) = true := by
      simp only [beq_iff_eq]
      exact fun hh => h hh.symm
    simp [rowSetVal, lookupField, this]
  | cons p t ih =>
    rcases p with ⟨k, w⟩
    by_cases hk : k = c
    · subst hk
      have : ¬ (k == c2) = true := by
        simp only [beq_iff_eq]
        exact fun hh => h hh.symm
      simp [rowSetVal, lookupField, this]
    · simp [rowSetVal, lookupField, hk, ih]

theorem lookupField_rowDropKey_ne (r : Row) (c c2 : String)
    (h : c2 ≠ c) : lookupField (rowDropKey r c) c2 = lookupField r c2 := by
  induction r with
  | nil => simp [rowDropKey]
  | cons p t ih =>
    rcases p with ⟨k, w⟩
    by_cases hk : k = c
    · subst hk
      have : ¬ (k == c2) = true := by
        simp only [beq_iff_eq]
        exact fun hh => h hh.symm
      simp [rowDropKey, lookupField, this, ih]
    · simp [rowDropKey, lookupField, hk, ih]

theorem rowVal_rowSetVal_ne (r : Row) (c c2 : String) (v : Json)
    (h : c2 ≠ c) : rowVal (rowSetVal r c v) c2 = rowVal r c2 := by
  simp [rowVal, lookupField_rowSetVal_ne r c c2 v h]

/-! ### mapME lemmas -/

theorem mapME_ok_forall₂ {α β : Type} {f : α → Except Err β} :
    ∀ {l : List α} {l2 : List β}, mapME f l = .ok l2 →
      List.Forall₂ (fun a b => f a = .ok b) l l2 := by
  intro l
  induction l with
  | nil => intro l2 h; simp [mapME] at h; subst h; exact List.Forall₂.nil
  | cons a t ih =>
    intro l2 h
    unfold mapME at h
    rcases ha : f a with e | b
    · rw [ha] at h; simp at h
    · rw [ha] at h
      rcases ht : mapME f t with e | t2
      · rw [ht] at h; simp at h
      · rw [ht] at h
        simp at h
        subst h
        exact List.Forall₂.cons ha (ih ht)

theorem mapME_ok_length {α β : Type} {f : α → Except Err β} {l : List α}
    {l2 : List β} (h : mapME f l = .ok l2) : l2.length = l.length :=
  (mapME_ok_forall₂ h).length_eq.symm

/-! ### Validator characterization -/

theorem rvs_run (net : Net) (secs : List String) (eff : Eff) :
    return_valid_securities net secs eff =
      ({ eff with urls := eff.urls ++ [refDataUrl] },
       (referenceSymbols net).map
         (fun vs => secs.filter (fun x => vs.any (fun v => jsonEqStr v x)))) := by
  unfold return_valid_securities url_to_dataframe referenceSymbols refDataUrl
  cases hn : net (endPointUrl ++ "ref-data/symbols") with
  | error e =>
    simp [mBind, mPure, fetchJson, liftE, hn, Except.map]
  | ok j =>
    cases hj : jsonNormalizeRows j with
    | error e =>
      simp [mBind, mPure, fetchJson, liftE, hn, hj, Except.map]
    | ok rows =>
      cases hg : (dfOfRows rows).getCol "symbol" with
      | error e =>
        simp [mBind, mPure, fetchJson, liftE, hn, hj, hg, Except.map]
      | ok vs =>
        simp [mBind, mPure, fetchJson, liftE, hn, hj, hg, Except.map]

/-! ### Template lemmas shared by the six public operations -/

theorem opTemplate_none (v : Proc (List String)) (body : List String → Proc DF)
    (eff eff1 : Eff) (h : v eff = (eff1, .ok [])) :
    opTemplate v body eff =
      ({ eff1 with prints := eff1.prints ++ [invalidMsg] }, .ok none) := by
  unfold opTemplate
  rw [mBind_of_ok h]
  simp [mBind, printMsg, mPure]

theorem opTemplate_ok_none_iff (v : Proc (List String))
    (body : List String → Proc DF) (eff : Eff) :
    (opTemplate v body eff).2 = .ok none ↔ (v eff).2 = .ok [] := by
  constructor
  · intro h
    unfold opTemplate at h
    rcases hv : v eff with ⟨eff1, r⟩
    cases r with
    | error e => rw [mBind_of_error hv] at h; simp at h
    | ok valid =>
      rw [mBind_of_ok hv] at h
      by_cases hval : valid = []
      · simp [hval]
      · rw [if_neg hval] at h
        rcases hb : body valid eff1 with ⟨eff2, rb⟩
        cases rb with
        | error e => rw [mBind_of_error hb] at h; simp at h
        | ok df => rw [mBind_of_ok hb] at h; simp [mPure] at h
  · intro h
    rcases hv : v eff with ⟨eff1, r⟩
    rw [hv] at h
    simp at h
    subst h
    rw [opTemplate_none v body eff eff1 hv]

theorem opTemplate_error_iff (v : Proc (List String))
    (body : List String → Proc DF) (eff : Eff) (e : Err) :
    (opTemplate v body eff).2 = .error e ↔
      ((v eff).2 = .error e ∨
       ∃ valid, (v eff).2 = .ok valid ∧ valid ≠ [] ∧
         (body valid (v eff).1).2 = .error e) := by
  unfold opTemplate
  rcases hv : v eff with ⟨eff1, r⟩
  cases r with
  | error e2 =>
    rw [mBind_of_error hv]
    simp
  | ok valid =>
    rw [mBind_of_ok hv]
    by_cases hval : valid = []
    · subst hval
      simp [mBind, printMsg, mPure]
    · rw [if_neg hval]
      rcases hb : body valid eff1 with ⟨eff2, rb⟩
      cases rb with
      | error e2 =>
        rw [mBind_of_error hb]
        simp [hval, hb]
      | ok df =>
        rw [mBind_of_ok hb]
        simp [mPure, hval, hb]

theorem opTemplate_ok_some (v : Proc (List String))
    (body : List String → Proc DF) (eff : Eff) (df : DF)
    (h : (opTemplate v body eff).2 = .ok (some df)) :
    ∃ valid, (v eff).2 = .ok valid ∧ valid ≠ [] ∧
      (body valid (v eff).1).2 = .ok df := by
  unfold opTemplate at h
  rcases hv : v eff with ⟨eff1, r⟩
  cases r with
  | error e => rw [mBind_of_error hv] at h; simp at h
  | ok valid =>
    rw [mBind_of_ok hv] at h
    by_cases hval : valid = []
    · rw [if_pos hval] at h
      simp [mBind, printMsg, mPure] at h
    · rw [if_neg hval] at h
      rcases hb : body valid eff1 with ⟨eff2, rb⟩
      cases rb with
      | error e => rw [mBind_of_error hb] at h; simp at h
      | ok d =>
        rw [mBind_of_ok hb] at h
        simp [mPure] at h
        subst h
        exact ⟨valid, rfl, hval, by simp [hb]⟩

/-! ### Accumulation-loop invariant -/

theorem accumLoop_ok {step : String → Proc DF} {P : String → DF → Prop}
    (hstep : ∀ s eff df, (step s eff).2 = .ok df → P s df) :
    ∀ (syms : List String) (acc : DF) (eff : Eff) (final : DF),
      (accumLoop step syms acc eff).2 = .ok final →
      ∃ dfs : List DF, List.Forall₂ P syms dfs ∧
        final.rows = acc.rows ++ (dfs.map DF.rows).flatten ∧
        final.cols = dfs.foldl (fun cs d => unionCols cs d.cols) acc.cols := by
  intro syms
  induction syms with
  | nil =>
    intro acc eff final h
    simp [accumLoop, mPure] at h
    subst h
    exact ⟨[], List.Forall₂.nil, by simp, by simp⟩
  | cons s rest ih =>
    intro acc eff final h
    unfold accumLoop at h
    rcases hs : step s eff with ⟨eff1, r⟩
    cases r with
    | error e => rw [mBind_of_error hs] at h; simp at h
    | ok d =>
      rw [mBind_of_ok hs] at h
      rcases ih (acc.appendDF d) eff1 final h with ⟨dfs, hf, hrows, hcols⟩
      refine ⟨d :: dfs, List.Forall₂.cons (hstep s eff d (by rw [hs])) hf, ?_, ?_⟩
      · rw [hrows]; simp [DF.appendDF]
      · rw [hcols]; simp [DF.appendDF]

/-! ### Small inversion and transfer lemmas -/

theorem exceptMap_ok {α β : Type} {f : α → β} {x : Except Err α} {b : β}
    (h : x.map f = .ok b) : ∃ a, x = .ok a ∧ b = f a := by
  cases x with
  | error e => simp [Except.map] at h
  | ok a => exact ⟨a, rfl, by simpa [Except.map] using h.symm⟩

theorem forall₂_zip_map {α β : Type} {R : α → β → Prop} (g : α → β → α) :
    ∀ {l1 : List α} {l2 : List β}, List.Forall₂ R l1 l2 →
      List.Forall₂ (fun a out => ∃ b, R a b ∧ out = g a b) l1
        ((l1.zip l2).map (fun ab => g ab.1 ab.2)) := by
  intro l1 l2 h
  induction h with
  | nil => simp
  | cons ha ht ih =>
    simp only [List.zip_cons_cons, List.map_cons]
    exact List.Forall₂.cons ⟨_, ha, rfl⟩ ih

theorem forall₂_trans_comp {α β γ : Type} {R : α → β → Prop} {S : β → γ → Prop} :
    ∀ {l1 : List α} {l2 : List β} {l3 : List γ},
      List.Forall₂ R l1 l2 → List.Forall₂ S l2 l3 →
      List.Forall₂ (fun a c => ∃ b, R a b ∧ S b c) l1 l3 := by
  intro l1 l2 l3 h
  induction h generalizing l3 with
  | nil =>
    intro h2
    cases h2
    exact List.Forall₂.nil
  | cons ha ht ih =>
    intro h2
    cases h2 with
    | cons hb ht2 => exact List.Forall₂.cons ⟨_, ha, hb⟩ (ih ht2)

theorem forall₂_map_eq {α β γ : Type} {f : α → γ} {g : β → γ} :
    ∀ {l1 : List α} {l2 : List β},
      List.Forall₂ (fun a b => f a = g b) l1 l2 → l1.map f = l2.map g := by
  intro l1 l2 h
  induction h with
  | nil => rfl
  | cons ha _ ih => simp only [List.map_cons, ha, ih]

theorem forall₂_mem_right {α β : Type} {R : α → β → Prop} :
    ∀ {l1 : List α} {l2 : List β}, List.Forall₂ R l1 l2 →
      ∀ b ∈ l2, ∃ a ∈ l1, R a b := by
  intro l1 l2 h
  induction h with
  | nil => intro b hb; cases hb
  | cons ha _ ih =>
    intro b hb
    cases hb with
    | head => exact ⟨_, List.mem_cons_self _ _, ha⟩
    | tail _ hb2 =>
      rcases ih b hb2 with ⟨a, hmem, hr⟩
      exact ⟨a, List.mem_cons_of_mem _ hmem, hr⟩

theorem rowVal_rowDropKey_ne (r : Row) (c c2 : String) (h : c2 ≠ c) :
    rowVal (rowDropKey r c) c2 = rowVal r c2 := by
  simp [rowVal, lookupField_rowDropKey_ne r c c2 h]

theorem rowVal_rowSetVal_self (r : Row) (c : String) (v : Json) :
    rowVal (rowSetVal r c v) c = v := by
  simp [rowVal, lookupField_rowSetVal_self]

theorem insertCol_of_contains {cs : List String} {c : String}
    (h : cs.contains c = true) : insertCol cs c = cs := by
  unfold insertCol
  rw [h]
  simp

/-! ### Dataframe operation characterizations -/

theorem DF.getCol_ok {df : DF} {c : String} {vs : List Json}
    (h : df.getCol c = .ok vs) :
    vs = df.rows.map (fun r => rowVal r c) ∧ df.cols.contains c = true := by
  unfold DF.getCol at h
  by_cases hc : df.cols.contains c = true
  · rw [if_pos hc] at h
    refine ⟨?_, hc⟩
    injection h with h2
    exact h2.symm
  · rw [if_neg hc] at h
    exact absurd h (by simp)

theorem DF.setIndex_ok {df df2 : DF} {c : String}
    (h : df.setIndex c = .ok df2) :
    df2.idxName = some c ∧ df2.idx = df.rows.map (fun r => rowVal r c) ∧
    df2.rows = df.rows.map (fun r => rowDropKey r c) := by
  unfold DF.setIndex at h
  rcases hg : df.getCol c with e | vs
  · rw [hg] at h; simp at h
  · rw [hg] at h
    injection h with h2
    subst h2
    rcases DF.getCol_ok hg with ⟨hvs, _⟩
    exact ⟨rfl, by rw [← hvs], rfl⟩

theorem DF.delCol_ok {df df2 : DF} {c : String} (h : df.delCol c = .ok df2) :
    df2.rows = df.rows.map (fun r => rowDropKey r c) ∧
    df2.cols = df.cols.filter (fun x => x != c) ∧
    df2.idxName = df.idxName ∧ df2.idx = df.idx := by
  unfold DF.delCol at h
  by_cases hc : df.cols.contains c = true
  · rw [if_pos hc] at h
    injection h with h2
    subst h2
    exact ⟨rfl, rfl, rfl, rfl⟩
  · rw [if_neg hc] at h
    exact absurd h (by simp)

theorem DF.selectCols_ok {df df2 : DF} {cs : List String}
    (h : df.selectCols cs = .ok df2) :
    df2.cols = cs ∧
    df2.rows = df.rows.map (fun r => cs.map (fun c => (c, rowVal r c))) := by
  unfold DF.selectCols at h
  cases hf : cs.find? (fun c => !(df.cols.contains c)) with
  | none =>
    rw [hf] at h
    injection h with h2
    subst h2
    exact ⟨rfl, rfl⟩
  | some c =>
    rw [hf] at h
    simp at h

theorem DF.mapCol_ok {df df2 : DF} {c : String} {f : Json → Except Err Json}
    (h : df.mapCol c f = .ok df2) :
    df2.idxName = df.idxName ∧ df2.idx = df.idx ∧ df2.cols = df.cols ∧
    List.Forall₂ (fun r r2 => ∃ w, f (rowVal r c) = .ok w ∧ r2 = rowSetVal r c w)
      df.rows df2.rows := by
  unfold DF.mapCol at h
  rcases hg : df.getCol c with e | vs
  · rw [hg] at h; simp at h
  · rw [hg] at h
    dsimp only at h
    rcases hm : mapME f vs with e | ws
    · rw [hm] at h; simp at h
    · rw [hm] at h
      injection h with h2
      subst h2
      rcases DF.getCol_ok hg with ⟨hvs, hc⟩
      subst hvs
      have hfa : List.Forall₂ (fun r w => f (rowVal r c) = .ok w) df.rows ws :=
        List.forall₂_map_left_iff.mp (mapME_ok_forall₂ hm)
      refine ⟨rfl, rfl, ?_, ?_⟩
      · simp [DF.setCol, insertCol_of_contains hc]
      · exact forall₂_zip_map (fun r w => rowSetVal r c w) hfa

/-! ### Fetch-and-normalize characterizations -/

theorem url_to_dataframe_none_run (net : Net) (url : String) (eff : Eff) :
    url_to_dataframe net url none eff =
      ({ eff with urls := eff.urls ++ [url] }, (rawRows net url).map dfOfRows) := by
  unfold url_to_dataframe rawRows
  cases hn : net url with
  | error e => simp [mBind, fetchJson, liftE, hn, Except.map]
  | ok j => simp [mBind, fetchJson, liftE, hn, Except.map]

theorem url_to_dataframe_nest_run (net : Net) (url k : String) (eff : Eff) :
    url_to_dataframe net url (some k) eff =
      ({ eff with urls := eff.urls ++ [url] },
       (nestedRows net url k).map dfOfRows) := by
  unfold url_to_dataframe nestedRows
  cases hn : net url with
  | error e => simp [mBind, fetchJson, liftE, hn, Except.map]
  | ok j =>
    cases hk : getKey j k with
    | none => simp [mBind, fetchJson, liftE, hn, hk, Except.map]
    | some v => simp [mBind, fetchJson, liftE, hn, hk, Except.map]

/-! ### Endpoint body characterizations -/

theorem quoteCore_ok {net : Net} {syms : List String} {eff : Eff} {df : DF}
    (h : (quoteCore net syms eff).2 = .ok df) :
    df.idxName = some "symbol" ∧
    ∃ raws, topsRawRows net (String.intercalate "," syms) = .ok raws ∧
      df.idx = raws.map (fun r => rowVal r "symbol") ∧
      List.Forall₂ (fun raw out =>
        (∃ w, toDatetimeMs (rowVal raw "lastSaleTime") = .ok w ∧
          lookupField out "lastSaleTime" = some w) ∧
        (∃ w, toDatetimeMs (rowVal raw "lastUpdated") = .ok w ∧
          lookupField out "lastUpdated" = some w)) raws df.rows := by
  unfold quoteCore at h
  rcases mBind_snd_ok h with ⟨df0, eff1, hu, h1⟩
  rw [url_to_dataframe_none_run] at hu
  have hmap : (rawRows net
      (endPointUrl ++ "tops?symbols=" ++ String.intercalate "," syms)).map dfOfRows
      = .ok df0 := congrArg Prod.snd hu
  rcases exceptMap_ok hmap with ⟨raws, hraws, hdf0⟩
  subst hdf0
  rcases mBind_snd_ok h1 with ⟨df1, eff2, hm1, h2⟩
  have hmc1 : (dfOfRows raws).mapCol "lastSaleTime" toDatetimeMs = .ok df1 := by
    have h5 := congrArg Prod.snd hm1
    simpa [liftE] using h5
  rcases mBind_snd_ok h2 with ⟨df2, eff3, hm2, h3⟩
  have hmc2 : df1.mapCol "lastUpdated" toDatetimeMs = .ok df2 := by
    have h5 := congrArg Prod.snd hm2
    simpa [liftE] using h5
  have hsi : df2.setIndex "symbol" = .ok df := by
    simpa [liftE] using h3
  rcases DF.mapCol_ok hmc1 with ⟨hn1, hi1, _, hf1⟩
  rcases DF.mapCol_ok hmc2 with ⟨hn2, hi2, _, hf2⟩
  rcases DF.setIndex_ok hsi with ⟨hin, hidx, hrows⟩
  have hrows0 : (dfOfRows raws).rows = raws := rfl
  rw [hrows0] at hf1
  have hcomp := forall₂_trans_comp hf1 hf2
  refine ⟨hin, raws, hraws, ?_, ?_⟩
  · rw [hidx]
    have hsym : List.Forall₂
        (fun raw r2 => rowVal raw "symbol" = rowVal r2 "symbol") raws df2.rows := by
      refine hcomp.imp ?_
      rintro raw r2 ⟨r1, ⟨w1, _, hr1⟩, ⟨w2, _, hr2⟩⟩
      rw [hr2, hr1]
      rw [rowVal_rowSetVal_ne _ _ _ _ (by decide),
          rowVal_rowSetVal_ne _ _ _ _ (by decide)]
    exact (forall₂_map_eq hsym).symm
  · rw [hrows]
    rw [List.forall₂_map_right_iff]
    refine hcomp.imp ?_
    rintro raw r2 ⟨r1, ⟨w1, hw1, hr1⟩, ⟨w2, hw2, hr2⟩⟩
    constructor
    · refine ⟨w1, hw1, ?_⟩
      rw [lookupField_rowDropKey_ne _ _ _ (by decide), hr2,
          lookupField_rowSetVal_ne _ _ _ _ (by decide), hr1,
          lookupField_rowSetVal_self]
    · refine ⟨w2, ?_, ?_⟩
      · rw [← hw2, hr1, rowVal_rowSetVal_ne _ _ _ _ (by decide)]
      · rw [lookupField_rowDropKey_ne _ _ _ (by decide), hr2,
          lookupField_rowSetVal_self]

theorem tradeCore_ok {net : Net} {syms : List String} {eff : Eff} {df : DF}
    (h : (tradeCore net syms eff).2 = .ok df) :
    df.idxName = some "symbol" ∧
    ∃ raws, tradeRawRows net (String.intercalate "," syms) = .ok raws ∧
      df.idx = raws.map (fun r => rowVal r "symbol") ∧
      List.Forall₂ (fun raw out =>
        ∃ w, toDatetimeMs (rowVal raw "time") = .ok w ∧
          lookupField out "time" = some w) raws df.rows := by
  unfold tradeCore at h
  rcases mBind_snd_ok h with ⟨df0, eff1, hu, h1⟩
  rw [url_to_dataframe_none_run] at hu
  have hmap : (rawRows net
      (endPointUrl ++ "tops/last?symbols=" ++ String.intercalate "," syms)).map
      dfOfRows = .ok df0 := congrArg Prod.snd hu
  rcases exceptMap_ok hmap with ⟨raws, hraws, hdf0⟩
  subst hdf0
  rcases mBind_snd_ok h1 with ⟨df1, eff2, hm1, h2⟩
  have hmc1 : (dfOfRows raws).mapCol "time" toDatetimeMs = .ok df1 := by
    have h5 := congrArg Prod.snd hm1
    simpa [liftE] using h5
  have hsi : df1.setIndex "symbol" = .ok df := by
    simpa [liftE] using h2
  rcases DF.mapCol_ok hmc1 with ⟨hn1, hi1, _, hf1⟩
  rcases DF.setIndex_ok hsi with ⟨hin, hidx, hrows⟩
  have hrows0 : (dfOfRows raws).rows = raws := rfl
  rw [hrows0] at hf1
  refine ⟨hin, raws, hraws, ?_, ?_⟩
  · rw [hidx]
    have hsym : List.Forall₂
        (fun raw r1 => rowVal raw "symbol" = rowVal r1 "symbol") raws df1.rows := by
      refine hf1.imp ?_
      rintro raw r1 ⟨w, _, hr1⟩
      rw [hr1, rowVal_rowSetVal_ne _ _ _ _ (by decide)]
    exact (forall₂_map_eq hsym).symm
  · rw [hrows]
    rw [List.forall₂_map_right_iff]
    refine hf1.imp ?_
    rintro raw r1 ⟨w, hw, hr1⟩
    refine ⟨w, hw, ?_⟩
    rw [lookupField_rowDropKey_ne _ _ _ (by decide), hr1,
        lookupField_rowSetVal_self]

theorem financialsStep_ok {net : Net} {s : String} {eff : Eff} {df : DF}
    (h : (financialsStep net s eff).2 = .ok df) :
    ∃ raws, nestedRows net (financialsUrl s) "financials" = .ok raws ∧
      df.rows = raws.map (fun r => rowSetVal r "symbol" (.str s)) := by
  unfold financialsStep at h
  rcases mBind_snd_ok h with ⟨df0, eff1, hu, h1⟩
  rw [url_to_dataframe_nest_run] at hu
  have hmap : (nestedRows net (financialsUrl s) "financials").map dfOfRows
      = .ok df0 := congrArg Prod.snd hu
  rcases exceptMap_ok hmap with ⟨raws, hraws, hdf0⟩
  subst hdf0
  have hdf : (dfOfRows raws).setColScalar "symbol" (.str s) = df := by
    have h5 : (mPure ((dfOfRows raws).setColScalar "symbol" (.str s)) eff1).2
        = Except.ok df := h1
    simpa [mPure] using h5
  rw [← hdf]
  exact ⟨raws, hraws, rfl⟩

theorem earningsStep_ok {net : Net} {s : String} {eff : Eff} {df : DF}
    (h : (earningsStep net s eff).2 = .ok df) :
    ∃ raws, nestedRows net (earningsUrl s) "earnings" = .ok raws ∧
      df.rows = raws.map (fun r => rowSetVal r "symbol" (.str s)) := by
  unfold earningsStep at h
  rcases mBind_snd_ok h with ⟨df0, eff1, hu, h1⟩
  rw [url_to_dataframe_nest_run] at hu
  have hmap : (nestedRows net (earningsUrl s) "earnings").map dfOfRows
      = .ok df0 := congrArg Prod.snd hu
  rcases exceptMap_ok hmap with ⟨raws, hraws, hdf0⟩
  subst hdf0
  have hdf : (dfOfRows raws).setColScalar "symbol" (.str s) = df := by
    have h5 : (mPure ((dfOfRows raws).setColScalar "symbol" (.str s)) eff1).2
        = Except.ok df := h1
    simpa [mPure] using h5
  rw [← hdf]
  exact ⟨raws, hraws, rfl⟩

theorem barsStep_ok {net : Net} {bucket s : String} {eff : Eff} {df : DF}
    (h : (barsStep net bucket s eff).2 = .ok df) :
    ∃ raws, chartRawRows net s bucket = .ok raws ∧
      df.rows = raws.map (fun r => rowSetVal r "symbol" (.str s)) := by
  unfold barsStep at h
  rcases mBind_snd_ok h with ⟨df0, eff1, hu, h1⟩
  rw [url_to_dataframe_none_run] at hu
  have hmap : (rawRows net (chartUrl s bucket)).map dfOfRows
      = .ok df0 := congrArg Prod.snd hu
  rcases exceptMap_ok hmap with ⟨raws, hraws, hdf0⟩
  subst hdf0
  have hdf : (dfOfRows raws).setColScalar "symbol" (.str s) = df := by
    have h5 : (mPure ((dfOfRows raws).setColScalar "symbol" (.str s)) eff1).2
        = Except.ok df := h1
    simpa [mPure] using h5
  rw [← hdf]
  exact ⟨raws, hraws, rfl⟩

theorem lookupField_newsProj_symbol (r : Row) :
    lookupField (newsColumns.map (fun c => (c, rowVal r c))) "symbol"
      = some (rowVal r "symbol") := by
  simp [newsColumns, lookupField]

theorem lookupField_newsProj_time (r : Row) :
    lookupField (newsColumns.map (fun c => (c, rowVal r c))) "time"
      = some (rowVal r "time") := by
  simp [newsColumns, lookupField]

theorem newsStep_ok {net : Net} {count : Nat} {s : String} {eff : Eff} {df : DF}
    (h : (newsStep net count s eff).2 = .ok df) :
    df.cols = newsColumns ∧
    ∃ raws, newsRawRows net count s = .ok raws ∧
      List.Forall₂ (fun raw out =>
        lookupField out "symbol" = some (.str s) ∧
        ∃ w, toDatetimeIso (rowVal raw "datetime") = .ok w ∧
          lookupField out "time" = some w) raws df.rows := by
  unfold newsStep at h
  rcases mBind_snd_ok h with ⟨df0, eff1, hu, h1⟩
  rw [url_to_dataframe_none_run] at hu
  have hmap : (rawRows net (newsUrl count s)).map dfOfRows = .ok df0 :=
    congrArg Prod.snd hu
  rcases exceptMap_ok hmap with ⟨raws, hraws, hdf0⟩
  subst hdf0
  rcases mBind_snd_ok h1 with ⟨raw, eff2, hgp, h2⟩
  have hgc : (dfOfRows raws).getCol "datetime" = .ok raw := by
    have h5 := congrArg Prod.snd hgp
    simpa [liftE] using h5
  rcases mBind_snd_ok h2 with ⟨decoded, eff3, hmp, h3⟩
  have hdec : mapME toDatetimeIso raw = .ok decoded := by
    have h5 := congrArg Prod.snd hmp
    simpa [liftE] using h5
  rcases mBind_snd_ok h3 with ⟨df2, eff4, hdp, h4⟩
  have hdel : ((dfOfRows raws).setCol "time" decoded).delCol "datetime"
      = .ok df2 := by
    have h5 := congrArg Prod.snd hdp
    simpa [liftE] using h5
  have hsel : (df2.setColScalar "symbol" (.str s)).selectCols newsColumns
      = .ok df := by
    simpa [liftE] using h4
  rcases DF.getCol_ok hgc with ⟨hraw, _⟩
  have hraw2 : raw = raws.map (fun r => rowVal r "datetime") := hraw
  subst hraw2
  have hbase : List.Forall₂
      (fun r w => toDatetimeIso (rowVal r "datetime") = .ok w) raws decoded :=
    List.forall₂_map_left_iff.mp (mapME_ok_forall₂ hdec)
  have hzip := forall₂_zip_map (fun r w => rowSetVal r "time" w) hbase
  have hrows1 : ((dfOfRows raws).setCol "time" decoded).rows
      = (raws.zip decoded).map (fun rv => rowSetVal rv.1 "time" rv.2) := rfl
  rcases DF.delCol_ok hdel with ⟨hrows2, _, _, _⟩
  rw [hrows1] at hrows2
  rcases DF.selectCols_ok hsel with ⟨hcols, hrowsF⟩
  have hrows3 : (df2.setColScalar "symbol" (Json.str s)).rows
      = df2.rows.map (fun r => rowSetVal r "symbol" (.str s)) := rfl
  rw [hrows3, hrows2] at hrowsF
  refine ⟨hcols, raws, hraws, ?_⟩
  rw [hrowsF]
  rw [List.forall₂_map_right_iff, List.forall₂_map_right_iff,
      List.forall₂_map_right_iff]
  refine hzip.imp ?_
  rintro raw out ⟨w, hw, hout⟩
  constructor
  · rw [lookupField_newsProj_symbol, rowVal_rowSetVal_self]
  · refine ⟨w, hw, ?_⟩
    rw [lookupField_newsProj_time,
        rowVal_rowSetVal_ne _ _ _ _ (by decide),
        rowVal_rowDropKey_ne _ _ _ (by decide), hout,
        rowVal_rowSetVal_self]

/-! ### Trace helpers and fold lemmas -/

theorem mBind_fst_pure {α β : Type} (x : Proc α) (g : α → β) (eff : Eff) :
    (mBind x (fun a => mPure (g a)) eff).1 = (x eff).1 := by
  unfold mBind
  rcases hx : x eff with ⟨eff1, r⟩
  cases r with
  | ok a => simp [mPure]
  | error e => simp

theorem accumLoop_single_fst (step : String → Proc DF) (s : String) (acc : DF)
    (eff : Eff) : (accumLoop step [s] acc eff).1 = (step s eff).1 := by
  unfold accumLoop
  rcases hs : step s eff with ⟨eff1, r⟩
  cases r with
  | ok d => rw [mBind_of_ok hs]; simp [accumLoop, mPure]
  | error e => rw [mBind_of_error hs]

theorem barsStep_fst (net : Net) (bucket s : String) (eff : Eff) :
    (barsStep net bucket s eff).1 =
      { eff with urls := eff.urls ++ [chartUrl s bucket] } := by
  unfold barsStep
  rw [mBind_fst_pure, url_to_dataframe_none_run]

theorem opTemplate_fst_of_valid (v : Proc (List String))
    (body : List String → Proc DF) (eff eff1 : Eff) (valid : List String)
    (hv : v eff = (eff1, .ok valid)) (hne : valid ≠ []) :
    (opTemplate v body eff).1 = (body valid eff1).1 := by
  unfold opTemplate
  rw [mBind_of_ok hv, if_neg hne, mBind_fst_pure]

theorem foldCols_news : ∀ (dfs : List DF), (∀ d ∈ dfs, d.cols = newsColumns) →
    dfs.foldl (fun cs d => unionCols cs d.cols) newsColumns = newsColumns := by
  intro dfs
  induction dfs with
  | nil => intro _; rfl
  | cons d t ih =>
    intro hall
    have hd : d.cols = newsColumns := hall d (List.mem_cons_self _ _)
    have hu : unionCols newsColumns newsColumns = newsColumns := by decide
    simp only [List.foldl_cons, hd, hu]
    exact ih (fun d2 hmem => hall d2 (List.mem_cons_of_mem _ hmem))

theorem flatten_length_of_forall₂ {A : String → Nat} :
    ∀ {syms : List String} {dfs : List DF},
      List.Forall₂ (fun s d => d.rows.length = A s) syms dfs →
      ((dfs.map DF.rows).flatten).length = (syms.map A).sum := by
  intro syms dfs h
  induction h with
  | nil => rfl
  | cons ha _ ih => simp [ha, ih]

/-! ### Claim theorems -/

/-- C1: for every input list, a successful `return_valid_securities` call
returns a sublist of the input (a subset in the caller's original order),
and every returned symbol appears in the server-provided reference list. -/
theorem C1_return_valid_securities_subset (net : Net) (secs out : List String)
    (h : (runP (return_valid_securities net secs)).2 = .ok out) :
    out.Sublist secs ∧
    ∃ vs, referenceSymbols net = .ok vs ∧
      ∀ x ∈ out, ∃ v ∈ vs, v = Json.str x := by
  unfold runP at h
  rw [rvs_run] at h
  dsimp only at h
  rcases hr : referenceSymbols net with e | vs
  · rw [hr] at h; simp [Except.map] at h
  · rw [hr] at h
    simp only [Except.map, Except.ok.injEq] at h
    subst h
    refine ⟨List.filter_sublist _, vs, rfl, ?_⟩
    intro x hx
    rcases List.mem_filter.mp hx with ⟨_, hpred⟩
    rcases List.any_eq_true.mp hpred with ⟨v, hv, hveq⟩
    cases v with
    | str s2 =>
      have hs2 : s2 = x := by simpa [jsonEqStr] using hveq
      exact ⟨.str s2, hv, by rw [hs2]⟩
    | null => simp [jsonEqStr] at hveq
    | bool b => simp [jsonEqStr] at hveq
    | num n => simp [jsonEqStr] at hveq
    | ts t => simp [jsonEqStr] at hveq
    | arr xs => simp [jsonEqStr] at hveq
    | obj fs => simp [jsonEqStr] at hveq

/-- Witness for C1: on the demo network, requesting AAPL and MSFT keeps
exactly AAPL, in order, and AAPL is in the reference list. -/
theorem C1_witness :
    (["AAPL"] : List String).Sublist ["AAPL", "MSFT"] ∧
    ∃ vs, referenceSymbols netDemo = .ok vs ∧
      ∀ x ∈ (["AAPL"] : List String), ∃ v ∈ vs, v = Json.str x :=
  C1_return_valid_securities_subset netDemo ["AAPL", "MSFT"] ["AAPL"] (by rfl)

/-- C9: `return_valid_securities` is exactly a membership filter of its
input: a symbol on the reference list keeps its full multiplicity in the
output, one absent from it appears zero times. -/
theorem C9_duplicates_preserved (net : Net) (secs out : List String)
    (x : String)
    (h : (runP (return_valid_securities net secs)).2 = .ok out) :
    ∃ vs, referenceSymbols net = .ok vs ∧
      out.count x =
        (if vs.any (fun v => jsonEqStr v x) then secs.count x else 0) := by
  unfold runP at h
  rw [rvs_run] at h
  dsimp only at h
  rcases hr : referenceSymbols net with e | vs
  · rw [hr] at h; simp [Except.map] at h
  · rw [hr] at h
    simp only [Except.map, Except.ok.injEq] at h
    subst h
    refine ⟨vs, rfl, ?_⟩
    by_cases hp : vs.any (fun v => jsonEqStr v x) = true
    · rw [if_pos hp]
      exact List.count_filter hp
    · rw [if_neg hp]
      rw [List.count_eq_zero]
      intro hx
      exact hp (List.mem_filter.mp hx).2

/-- Witness for C9: on the demo network a duplicated valid symbol keeps
its two occurrences and an invalid one is dropped to zero. -/
theorem C9_witness :
    ∃ vs, referenceSymbols netDemo = .ok vs ∧
      (["AAPL", "AAPL"] : List String).count "AAPL" =
        (if vs.any (fun v => jsonEqStr v "AAPL")
         then (["AAPL", "MSFT", "AAPL"] : List String).count "AAPL" else 0) :=
  C9_duplicates_preserved netDemo ["AAPL", "MSFT", "AAPL"] ["AAPL", "AAPL"]
    "AAPL" (by rfl)

/-- C10: the validator fetches the reference list exactly once per
invocation, before examining its input: the URL trace always grows by
exactly the reference-data URL, even on an empty input, and a failing
reference fetch propagates even when the input is empty. -/
theorem C10_validator_always_fetches (net : Net) (secs : List String)
    (e : Err) :
    (∀ eff, (return_valid_securities net secs eff).1
       = { eff with urls := eff.urls ++ [refDataUrl] }) ∧
    (net refDataUrl = .error e →
      (runP (return_valid_securities net [])).2 = .error e) := by
  constructor
  · intro eff
    rw [rvs_run]
  · intro hfail
    unfold runP
    rw [rvs_run]
    dsimp only
    unfold referenceSymbols
    rw [hfail]
    rfl

/-- C2: when no requested symbol validates, each of the six public
operations prints the diagnostic, returns an absent result (`None`, not an
error), and fetches nothing beyond the single reference-list URL. -/
theorem C2_invalid_symbols_soft (net : Net) (secs : List String)
    (count : Nat) (bucket : String)
    (h : (runP (return_valid_securities net secs)).2 = .ok []) :
    runP (get_latest_quote_and_trade net secs) =
      ({ urls := [refDataUrl], prints := [invalidMsg] }, .ok none) ∧
    runP (get_latest_trade net secs) =
      ({ urls := [refDataUrl], prints := [invalidMsg] }, .ok none) ∧
    runP (get_latest_news net secs count) =
      ({ urls := [refDataUrl], prints := [invalidMsg] }, .ok none) ∧
    runP (get_financials net secs) =
      ({ urls := [refDataUrl], prints := [invalidMsg] }, .ok none) ∧
    runP (get_earnings net secs) =
      ({ urls := [refDataUrl], prints := [invalidMsg] }, .ok none) ∧
    runP (get_trade_bars_data net secs bucket) =
      ({ urls := [refDataUrl], prints := [invalidMsg] }, .ok none) := by
  unfold runP at h
  rw [rvs_run] at h
  dsimp only at h
  have hpair : return_valid_securities net secs Eff.init =
      ({ urls := [refDataUrl], prints := [] }, .ok []) := by
    rw [rvs_run, h]
    rfl
  refine ⟨?_, ?_, ?_, ?_, ?_, ?_⟩
  · unfold runP get_latest_quote_and_trade
    rw [opTemplate_none _ _ _ _ hpair]
    rfl
  · unfold runP get_latest_trade
    rw [opTemplate_none _ _ _ _ hpair]
    rfl
  · unfold runP get_latest_news
    rw [opTemplate_none _ _ _ _ hpair]
    rfl
  · unfold runP get_financials
    rw [opTemplate_none _ _ _ _ hpair]
    rfl
  · unfold runP get_earnings
    rw [opTemplate_none _ _ _ _ hpair]
    rfl
  · unfold runP get_trade_bars_data
    rw [opTemplate_none _ _ _ _ hpair]
    rfl

/-- Witness for C2: requesting only MSFT (absent from the demo reference
list) makes all six operations print the diagnostic and return `None`
after the single reference fetch. -/
theorem C2_witness :
    runP (get_latest_quote_and_trade netDemo ["MSFT"]) =
      ({ urls := [refDataUrl], prints := [invalidMsg] }, .ok none) ∧
    runP (get_latest_trade netDemo ["MSFT"]) =
      ({ urls := [refDataUrl], prints := [invalidMsg] }, .ok none) ∧
    runP (get_latest_news netDemo ["MSFT"] 1) =
      ({ urls := [refDataUrl], prints := [invalidMsg] }, .ok none) ∧
    runP (get_financials netDemo ["MSFT"]) =
      ({ urls := [refDataUrl], prints := [invalidMsg] }, .ok none) ∧
    runP (get_earnings netDemo ["MSFT"]) =
      ({ urls := [refDataUrl], prints := [invalidMsg] }, .ok none) ∧
    runP (get_trade_bars_data netDemo ["MSFT"] "1y") =
      ({ urls := [refDataUrl], prints := [invalidMsg] }, .ok none) :=
  C2_invalid_symbols_soft netDemo ["MSFT"] 1 "1y" (by rfl)

theorem forall₂_imp_mem {α β : Type} {P R : α → β → Prop} :
    ∀ {l1 : List α} {l2 : List β}, List.Forall₂ P l1 l2 →
      (∀ a b, a ∈ l1 → P a b → R a b) → List.Forall₂ R l1 l2 := by
  intro l1 l2 h
  induction h with
  | nil => intro _; exact List.Forall₂.nil
  | cons ha ht ih =>
    intro himp
    exact List.Forall₂.cons
      (himp _ _ (List.mem_cons_self _ _) ha)
      (ih (fun a b hmem hp => himp a b (List.mem_cons_of_mem _ hmem) hp))

/-- C8: across the six public operations the invalid-symbol set is the
only locally handled, non-raising condition: an absent (`None`) result
occurs exactly when validation kept no symbol, and an error arises exactly
from a failed validation or a failed endpoint body, propagated unchanged
(no retry, no local recovery). -/
theorem C8_only_invalid_handled (net : Net) (secs : List String)
    (count : Nat) (bucket : String) (e : Err) :
    ((runP (get_latest_quote_and_trade net secs)).2 = .ok none ↔
       (runP (return_valid_securities net secs)).2 = .ok []) ∧
    ((runP (get_latest_trade net secs)).2 = .ok none ↔
       (runP (return_valid_securities net secs)).2 = .ok []) ∧
    ((runP (get_latest_news net secs count)).2 = .ok none ↔
       (runP (return_valid_securities net secs)).2 = .ok []) ∧
    ((runP (get_financials net secs)).2 = .ok none ↔
       (runP (return_valid_securities net secs)).2 = .ok []) ∧
    ((runP (get_earnings net secs)).2 = .ok none ↔
       (runP (return_valid_securities net secs)).2 = .ok []) ∧
    ((runP (get_trade_bars_data net secs bucket)).2 = .ok none ↔
       (runP (return_valid_securities net secs)).2 = .ok []) ∧
    ((runP (get_latest_quote_and_trade net secs)).2 = .error e ↔
       ((runP (return_valid_securities net secs)).2 = .error e ∨
        ∃ valid, (runP (return_valid_securities net secs)).2 = .ok valid ∧
          valid ≠ [] ∧
          (quoteCore net valid
            (runP (return_valid_securities net secs)).1).2 = .error e)) ∧
    ((runP (get_latest_trade net secs)).2 = .error e ↔
       ((runP (return_valid_securities net secs)).2 = .error e ∨
        ∃ valid, (runP (return_valid_securities net secs)).2 = .ok valid ∧
          valid ≠ [] ∧
          (tradeCore net valid
            (runP (return_valid_securities net secs)).1).2 = .error e)) ∧
    ((runP (get_latest_news net secs count)).2 = .error e ↔
       ((runP (return_valid_securities net secs)).2 = .error e ∨
        ∃ valid, (runP (return_valid_securities net secs)).2 = .ok valid ∧
          valid ≠ [] ∧
          (accumLoop (newsStep net count) valid emptyDF
            (runP (return_valid_securities net secs)).1).2 = .error e)) ∧
    ((runP (get_financials net secs)).2 = .error e ↔
       ((runP (return_valid_securities net secs)).2 = .error e ∨
        ∃ valid, (runP (return_valid_securities net secs)).2 = .ok valid ∧
          valid ≠ [] ∧
          (accumLoop (financialsStep net) valid emptyDF
            (runP (return_valid_securities net secs)).1).2 = .error e)) ∧
    ((runP (get_earnings net secs)).2 = .error e ↔
       ((runP (return_valid_securities net secs)).2 = .error e ∨
        ∃ valid, (runP (return_valid_securities net secs)).2 = .ok valid ∧
          valid ≠ [] ∧
          (accumLoop (earningsStep net) valid emptyDF
            (runP (return_valid_securities net secs)).1).2 = .error e)) ∧
    ((runP (get_trade_bars_data net secs bucket)).2 = .error e ↔
       ((runP (return_valid_securities net secs)).2 = .error e ∨
        ∃ valid, (runP (return_valid_securities net secs)).2 = .ok valid ∧
          valid ≠ [] ∧
          (accumLoop (barsStep net bucket) valid emptyDF
            (runP (return_valid_securities net secs)).1).2 = .error e)) := by
  unfold runP get_latest_quote_and_trade get_latest_trade get_latest_news
    get_financials get_earnings get_trade_bars_data
  exact ⟨opTemplate_ok_none_iff _ _ _, opTemplate_ok_none_iff _ _ _,
    opTemplate_ok_none_iff _ _ _, opTemplate_ok_none_iff _ _ _,
    opTemplate_ok_none_iff _ _ _, opTemplate_ok_none_iff _ _ _,
    opTemplate_error_iff _ _ _ _, opTemplate_error_iff _ _ _ _,
    opTemplate_error_iff _ _ _ _, opTemplate_error_iff _ _ _ _,
    opTemplate_error_iff _ _ _ _, opTemplate_error_iff _ _ _ _⟩

/-- C3: in the four per-symbol operations, a successful table is the
concatenation of one batch per validated symbol, in order, every row of a
batch carrying `symbol = that symbol` (a non-null string cell); hence no
row for a symbol that failed the validity gate is ever present. -/
theorem C3_rows_tagged (net : Net) (secs : List String) (count : Nat)
    (bucket : String) (valid : List String)
    (hv : (runP (return_valid_securities net secs)).2 = .ok valid) :
    (∀ df, (runP (get_latest_news net secs count)).2 = .ok (some df) →
       ∃ batches : List (List Row),
         List.Forall₂ (fun s batch => ∀ r ∈ batch,
           lookupField r "symbol" = some (.str s)) valid batches ∧
         df.rows = batches.flatten) ∧
    (∀ df, (runP (get_financials net secs)).2 = .ok (some df) →
       ∃ batches : List (List Row),
         List.Forall₂ (fun s batch => ∀ r ∈ batch,
           lookupField r "symbol" = some (.str s)) valid batches ∧
         df.rows = batches.flatten) ∧
    (∀ df, (runP (get_earnings net secs)).2 = .ok (some df) →
       ∃ batches : List (List Row),
         List.Forall₂ (fun s batch => ∀ r ∈ batch,
           lookupField r "symbol" = some (.str s)) valid batches ∧
         df.rows = batches.flatten) ∧
    (∀ df, (runP (get_trade_bars_data net secs bucket)).2 = .ok (some df) →
       ∃ batches : List (List Row),
         List.Forall₂ (fun s batch => ∀ r ∈ batch,
           lookupField r "symbol" = some (.str s)) valid batches ∧
         df.rows = batches.flatten) := by
  unfold runP at hv
  have main : ∀ (step : String → Proc DF),
      (∀ s eff df, (step s eff).2 = .ok df →
        ∀ r ∈ df.rows, lookupField r "symbol" = some (.str s)) →
      ∀ df, (opTemplate (return_valid_securities net secs)
          (fun vs => accumLoop step vs emptyDF) Eff.init).2 = .ok (some df) →
      ∃ batches : List (List Row),
        List.Forall₂ (fun s batch => ∀ r ∈ batch,
          lookupField r "symbol" = some (.str s)) valid batches ∧
        df.rows = batches.flatten := by
    intro step hstep df hdf
    rcases opTemplate_ok_some _ _ _ _ hdf with ⟨valid2, hv2, hne, hbody⟩
    rw [hv] at hv2
    injection hv2 with hv3
    subst hv3
    rcases accumLoop_ok hstep valid emptyDF _ df hbody with ⟨dfs, hfa, hrows, _⟩
    refine ⟨dfs.map DF.rows, List.forall₂_map_right_iff.mpr hfa, ?_⟩
    simpa [emptyDF] using hrows
  refine ⟨?_, ?_, ?_, ?_⟩
  · unfold runP get_latest_news
    refine main (newsStep net count) ?_
    intro s eff df hd r hr
    rcases newsStep_ok hd with ⟨_, raws, _, hfa⟩
    rcases forall₂_mem_right hfa r hr with ⟨raw, _, hsym, _⟩
    exact hsym
  · unfold runP get_financials
    refine main (financialsStep net) ?_
    intro s eff df hd r hr
    rcases financialsStep_ok hd with ⟨raws, _, hrows⟩
    rw [hrows] at hr
    rcases List.mem_map.mp hr with ⟨raw, _, hh⟩
    rw [← hh]
    exact lookupField_rowSetVal_self raw "symbol" (.str s)
  · unfold runP get_earnings
    refine main (earningsStep net) ?_
    intro s eff df hd r hr
    rcases earningsStep_ok hd with ⟨raws, _, hrows⟩
    rw [hrows] at hr
    rcases List.mem_map.mp hr with ⟨raw, _, hh⟩
    rw [← hh]
    exact lookupField_rowSetVal_self raw "symbol" (.str s)
  · unfold runP get_trade_bars_data
    refine main (barsStep net bucket) ?_
    intro s eff df hd r hr
    rcases barsStep_ok hd with ⟨raws, _, hrows⟩
    rw [hrows] at hr
    rcases List.mem_map.mp hr with ⟨raw, _, hh⟩
    rw [← hh]
    exact lookupField_rowSetVal_self raw "symbol" (.str s)

/-- Witness for C3 at the demo network: AAPL validates, MSFT does not, so
every returned row of the four iterating operations is tagged AAPL. -/
theorem C3_witness :
    (∀ df, (runP (get_latest_news netDemo ["AAPL", "MSFT"] 1)).2
        = .ok (some df) →
       ∃ batches : List (List Row),
         List.Forall₂ (fun s batch => ∀ r ∈ batch,
           lookupField r "symbol" = some (.str s)) ["AAPL"] batches ∧
         df.rows = batches.flatten) ∧
    (∀ df, (runP (get_financials netDemo ["AAPL", "MSFT"])).2
        = .ok (some df) →
       ∃ batches : List (List Row),
         List.Forall₂ (fun s batch => ∀ r ∈ batch,
           lookupField r "symbol" = some (.str s)) ["AAPL"] batches ∧
         df.rows = batches.flatten) ∧
    (∀ df, (runP (get_earnings netDemo ["AAPL", "MSFT"])).2
        = .ok (some df) →
       ∃ batches : List (List Row),
         List.Forall₂ (fun s batch => ∀ r ∈ batch,
           lookupField r "symbol" = some (.str s)) ["AAPL"] batches ∧
         df.rows = batches.flatten) ∧
    (∀ df, (runP (get_trade_bars_data netDemo ["AAPL", "MSFT"] "1y")).2
        = .ok (some df) →
       ∃ batches : List (List Row),
         List.Forall₂ (fun s batch => ∀ r ∈ batch,
           lookupField r "symbol" = some (.str s)) ["AAPL"] batches ∧
         df.rows = batches.flatten) :=
  C3_rows_tagged netDemo ["AAPL", "MSFT"] 1 "1y" ["AAPL"] (by rfl)

/-- C4: a successful news table has exactly the columns
`[symbol, time, headline, summary, source, url, related]` in that order —
in particular no `datetime` column — and every row's `time` cell holds the
decoded value of the raw `datetime` field of the response row that
produced it. -/
theorem C4_news_shape (net : Net) (secs : List String) (count : Nat)
    (df : DF)
    (h : (runP (get_latest_news net secs count)).2 = .ok (some df)) :
    df.cols = newsColumns ∧ "datetime" ∉ df.cols ∧
    ∀ r ∈ df.rows, ∃ s raws raw,
      newsRawRows net count s = .ok raws ∧ raw ∈ raws ∧
      ∃ w, toDatetimeIso (rowVal raw "datetime") = .ok w ∧
        lookupField r "time" = some w := by
  unfold runP get_latest_news at h
  rcases opTemplate_ok_some _ _ _ _ h with ⟨valid, hv, hne, hbody⟩
  have hstep : ∀ s eff d, (newsStep net count s eff).2 = .ok d →
      d.cols = newsColumns ∧ ∀ r ∈ d.rows, ∃ raws raw,
        newsRawRows net count s = .ok raws ∧ raw ∈ raws ∧
        ∃ w, toDatetimeIso (rowVal raw "datetime") = .ok w ∧
          lookupField r "time" = some w := by
    intro s eff d hd
    rcases newsStep_ok hd with ⟨hcols, raws, hraws, hfa⟩
    refine ⟨hcols, ?_⟩
    intro r hr
    rcases forall₂_mem_right hfa r hr with ⟨raw, hmem, _, w, hw, ht⟩
    exact ⟨raws, raw, hraws, hmem, w, hw, ht⟩
  rcases accumLoop_ok hstep valid emptyDF _ df hbody with ⟨dfs, hfa, hrows, hcols⟩
  have hrows2 : df.rows = (dfs.map DF.rows).flatten := by
    simpa [emptyDF] using hrows
  have hallcols : ∀ d ∈ dfs, d.cols = newsColumns := by
    intro d hd
    rcases forall₂_mem_right hfa d hd with ⟨s, _, hc, _⟩
    exact hc
  have hdfs_ne : dfs ≠ [] := by
    intro hnil
    have hlen := hfa.length_eq
    rw [hnil] at hlen
    simp at hlen
    exact hne hlen
  have hcolseq : df.cols = newsColumns := by
    rw [hcols]
    cases dfs with
    | nil => exact absurd rfl hdfs_ne
    | cons d rest =>
      have hd : d.cols = newsColumns := hallcols d (List.mem_cons_self _ _)
      have h0 : unionCols emptyDF.cols d.cols = newsColumns := by
        rw [hd]; decide
      simp only [List.foldl_cons, h0]
      exact foldCols_news rest
        (fun d2 hm => hallcols d2 (List.mem_cons_of_mem _ hm))
  refine ⟨hcolseq, by rw [hcolseq]; decide, ?_⟩
  intro r hr
  rw [hrows2] at hr
  rcases List.mem_flatten.mp hr with ⟨batch, hbm, hrb⟩
  rcases List.mem_map.mp hbm with ⟨d, hdm, hdb⟩
  rcases forall₂_mem_right hfa d hdm with ⟨s, _, _, hrows_d⟩
  rcases hrows_d r (by rw [← hdb] at hrb; exact hrb)
    with ⟨raws, raw, hraws, hmem, w, hw, ht⟩
  exact ⟨s, raws, raw, hraws, hmem, w, hw, ht⟩

/-- Witness for C4: the news table the demo network produces has exactly
the fixed columns in order and its `time` cell is the decoded
`datetime`. -/
theorem C4_witness :
    ∃ df : DF,
      (runP (get_latest_news netDemo ["AAPL", "MSFT"] 1)).2 = .ok (some df) ∧
      df.cols = newsColumns ∧ "datetime" ∉ df.cols ∧
      ∀ r ∈ df.rows, ∃ s raws raw,
        newsRawRows netDemo 1 s = .ok raws ∧ raw ∈ raws ∧
        ∃ w, toDatetimeIso (rowVal raw "datetime") = .ok w ∧
          lookupField r "time" = some w :=
  ⟨{ idxName := none, idx := [Json.num 0], cols := newsColumns,
     rows := [[("symbol", Json.str "AAPL"),
               ("time", Json.ts ⟨2017, 7, 14, 2, 40, 0, 0⟩),
               ("headline", Json.str "h"), ("summary", Json.str "sm"),
               ("source", Json.str "src"), ("url", Json.str "u"),
               ("related", Json.str "r")]] },
   rfl, C4_news_shape netDemo ["AAPL", "MSFT"] 1 _ (by rfl)⟩

/-- C5: for financials and earnings, every validated symbol contributes
exactly as many rows as the length of the nested array under the
respective key of its response, so the table's total row count is the sum
over the validated symbols. -/
theorem C5_nested_row_counts (net : Net) (secs valid : List String)
    (A B : String → Nat)
    (hv : (runP (return_valid_securities net secs)).2 = .ok valid)
    (hA : ∀ s ∈ valid,
      nestedArrLen net (financialsUrl s) "financials" = some (A s))
    (hB : ∀ s ∈ valid,
      nestedArrLen net (earningsUrl s) "earnings" = some (B s)) :
    (∀ df, (runP (get_financials net secs)).2 = .ok (some df) →
       df.rows.length = (valid.map A).sum) ∧
    (∀ df, (runP (get_earnings net secs)).2 = .ok (some df) →
       df.rows.length = (valid.map B).sum) := by
  unfold runP at hv
  have hstepF : ∀ s eff d, (financialsStep net s eff).2 = .ok d →
      ∀ n, nestedArrLen net (financialsUrl s) "financials" = some n →
        d.rows.length = n := by
    intro s eff d hd n hn
    rcases financialsStep_ok hd with ⟨raws, hraws, hrows⟩
    rw [hrows, List.length_map]
    unfold nestedRows at hraws
    unfold nestedArrLen at hn
    rcases hnet : net (financialsUrl s) with e | j
    · rw [hnet] at hn; simp at hn
    · rw [hnet] at hn hraws
      dsimp only at hn hraws
      rcases hk : getKey j "financials" with _ | v
      · rw [hk] at hn; simp at hn
      · rw [hk] at hn hraws
        dsimp only at hn hraws
        cases v with
        | arr xs =>
          have hlen : xs.length = n := by
            simpa using hn
          unfold jsonNormalizeRows at hraws
          rw [← hlen]
          exact mapME_ok_length hraws
        | null => simp at hn
        | bool b => simp at hn
        | num n2 => simp at hn
        | str s2 => simp at hn
        | ts t => simp at hn
        | obj fs => simp at hn
  have hstepE : ∀ s eff d, (earningsStep net s eff).2 = .ok d →
      ∀ n, nestedArrLen net (earningsUrl s) "earnings" = some n →
        d.rows.length = n := by
    intro s eff d hd n hn
    rcases earningsStep_ok hd with ⟨raws, hraws, hrows⟩
    rw [hrows, List.length_map]
    unfold nestedRows at hraws
    unfold nestedArrLen at hn
    rcases hnet : net (earningsUrl s) with e | j
    · rw [hnet] at hn; simp at hn
    · rw [hnet] at hn hraws
      dsimp only at hn hraws
      rcases hk : getKey j "earnings" with _ | v
      · rw [hk] at hn; simp at hn
      · rw [hk] at hn hraws
        dsimp only at hn hraws
        cases v with
        | arr xs =>
          have hlen : xs.length = n := by
            simpa using hn
          unfold jsonNormalizeRows at hraws
          rw [← hlen]
          exact mapME_ok_length hraws
        | null => simp at hn
        | bool b => simp at hn
        | num n2 => simp at hn
        | str s2 => simp at hn
        | ts t => simp at hn
        | obj fs => simp at hn
  constructor
  · intro df hdf
    unfold runP get_financials at hdf
    rcases opTemplate_ok_some _ _ _ _ hdf with ⟨valid2, hv2, hne, hbody⟩
    rw [hv] at hv2
    injection hv2 with hv3
    subst hv3
    rcases accumLoop_ok hstepF valid emptyDF _ df hbody with ⟨dfs, hfa, hrows, _⟩
    have hfa2 : List.Forall₂ (fun s d => d.rows.length = A s) valid dfs :=
      forall₂_imp_mem hfa (fun s d hmem hp => hp (A s) (hA s hmem))
    have hlen := flatten_length_of_forall₂ hfa2
    rw [hrows]
    simpa [emptyDF] using hlen
  · intro df hdf
    unfold runP get_earnings at hdf
    rcases opTemplate_ok_some _ _ _ _ hdf with ⟨valid2, hv2, hne, hbody⟩
    rw [hv] at hv2
    injection hv2 with hv3
    subst hv3
    rcases accumLoop_ok hstepE valid emptyDF _ df hbody with ⟨dfs, hfa, hrows, _⟩
    have hfa2 : List.Forall₂ (fun s d => d.rows.length = B s) valid dfs :=
      forall₂_imp_mem hfa (fun s d hmem hp => hp (B s) (hB s hmem))
    have hlen := flatten_length_of_forall₂ hfa2
    rw [hrows]
    simpa [emptyDF] using hlen

/-- Witness for C5: on the demo network AAPL's financials response nests
two periods and its earnings response one, and the row counts match. -/
theorem C5_witness :
    (∀ df, (runP (get_financials netDemo ["AAPL", "MSFT"])).2
        = .ok (some df) →
       df.rows.length = ((["AAPL"] : List String).map (fun _ => 2)).sum) ∧
    (∀ df, (runP (get_earnings netDemo ["AAPL", "MSFT"])).2
        = .ok (some df) →
       df.rows.length = ((["AAPL"] : List String).map (fun _ => 1)).sum) :=
  C5_nested_row_counts netDemo ["AAPL", "MSFT"] ["AAPL"]
    (fun _ => 2) (fun _ => 1) (by rfl)
    (by
      intro s hs
      rw [List.mem_singleton] at hs
      subst hs
      rfl)
    (by
      intro s hs
      rw [List.mem_singleton] at hs
      subst hs
      rfl)

/-- Counterexample for C6 as stated: on a network whose chart response
for AAPL carries the epoch-millisecond field `time = 1500000000000`,
`get_trade_bars_data` returns that cell as the raw number, not as a
decoded calendar timestamp — bar outputs are not decoded. -/
theorem C6_counterexample :
    (runP (get_trade_bars_data netBars ["AAPL"] "1m")).2.map
        (fun od => od.map (fun d => d.rows.map (fun r => lookupField r "time")))
      = .ok (some [some (Json.num 1500000000000)]) ∧
    Json.num 1500000000000 ≠ Json.ts (tsFromMs 1500000000000) := by
  constructor
  · rfl
  · intro hq
    exact Json.noConfusion hq

/-- C6 (amended): decoding the epoch value 1500000000000 ms yields
2017-07-14T02:40:00; `get_latest_quote_and_trade` decodes the two
epoch-millisecond fields `lastSaleTime` and `lastUpdated`,
`get_latest_trade` decodes `time`, and both results are row-keyed by
symbol. (Bar outputs carry the chart response as fetched, undecoded.) -/
theorem C6_quote_trade_decode (net : Net) (secs : List String) :
    tsFromMs 1500000000000 =
      { year := 2017, month := 7, day := 14, hour := 2, minute := 40,
        second := 0, msec := 0 } ∧
    (∀ df, (runP (get_latest_quote_and_trade net secs)).2 = .ok (some df) →
       df.idxName = some "symbol" ∧
       ∃ valid raws,
         (runP (return_valid_securities net secs)).2 = .ok valid ∧
         topsRawRows net (String.intercalate "," valid) = .ok raws ∧
         df.idx = raws.map (fun r => rowVal r "symbol") ∧
         List.Forall₂ (fun raw out =>
           (∃ w, toDatetimeMs (rowVal raw "lastSaleTime") = .ok w ∧
             lookupField out "lastSaleTime" = some w) ∧
           (∃ w, toDatetimeMs (rowVal raw "lastUpdated") = .ok w ∧
             lookupField out "lastUpdated" = some w)) raws df.rows) ∧
    (∀ df, (runP (get_latest_trade net secs)).2 = .ok (some df) →
       df.idxName = some "symbol" ∧
       ∃ valid raws,
         (runP (return_valid_securities net secs)).2 = .ok valid ∧
         tradeRawRows net (String.intercalate "," valid) = .ok raws ∧
         df.idx = raws.map (fun r => rowVal r "symbol") ∧
         List.Forall₂ (fun raw out =>
           ∃ w, toDatetimeMs (rowVal raw "time") = .ok w ∧
             lookupField out "time" = some w) raws df.rows) := by
  refine ⟨by decide, ?_, ?_⟩
  · intro df h
    unfold runP get_latest_quote_and_trade at h
    rcases opTemplate_ok_some _ _ _ _ h with ⟨valid, hv, hne, hbody⟩
    rcases quoteCore_ok hbody with ⟨hidxn, raws, hraws, hidx, hfa⟩
    exact ⟨hidxn, valid, raws, hv, hraws, hidx, hfa⟩
  · intro df h
    unfold runP get_latest_trade at h
    rcases opTemplate_ok_some _ _ _ _ h with ⟨valid, hv, hne, hbody⟩
    rcases tradeCore_ok hbody with ⟨hidxn, raws, hraws, hidx, hfa⟩
    exact ⟨hidxn, valid, raws, hv, hraws, hidx, hfa⟩

/-- C7: with a single validated symbol, `get_trade_bars_data` issues
exactly one data GET beyond the validation fetch, to
`stock/{symbol}/chart/{bucket}` — the bucket string, whatever it is, is
used unvalidated — a failing chart fetch propagates as the error, and a
successful result has one row per entry of the returned chart array, each
tagged with the symbol. -/
theorem C7_bars_single_get (net : Net) (secs : List String)
    (s bucket : String) (e : Err) (xs : List Json)
    (hv : (runP (return_valid_securities net secs)).2 = .ok [s]) :
    (runP (get_trade_bars_data net secs bucket)).1.urls
        = [refDataUrl, chartUrl s bucket] ∧
    (net (chartUrl s bucket) = .error e →
      (runP (get_trade_bars_data net secs bucket)).2 = .error e) ∧
    (∀ df, (runP (get_trade_bars_data net secs bucket)).2 = .ok (some df) →
       net (chartUrl s bucket) = .ok (.arr xs) →
       df.rows.length = xs.length ∧
       ∀ r ∈ df.rows, lookupField r "symbol" = some (.str s)) := by
  unfold runP at hv
  rw [rvs_run] at hv
  dsimp only at hv
  have hpair : return_valid_securities net secs Eff.init =
      ({ urls := [refDataUrl], prints := [] }, .ok [s]) := by
    rw [rvs_run, hv]
    rfl
  refine ⟨?_, ?_, ?_⟩
  · unfold runP get_trade_bars_data
    rw [opTemplate_fst_of_valid _ _ _ _ [s] hpair (by simp),
        accumLoop_single_fst, barsStep_fst]
    rfl
  · intro hfail
    have hraw : rawRows net (chartUrl s bucket) = .error e := by
      unfold rawRows
      rw [hfail]
    have hu : url_to_dataframe net (chartUrl s bucket) none
        { urls := [refDataUrl], prints := [] } =
        ({ urls := [refDataUrl, chartUrl s bucket], prints := [] },
         .error e) := by
      rw [url_to_dataframe_none_run, hraw]
      rfl
    have hstep : barsStep net bucket s { urls := [refDataUrl], prints := [] } =
        ({ urls := [refDataUrl, chartUrl s bucket], prints := [] },
         .error e) := by
      unfold barsStep
      rw [mBind_of_error hu]
    unfold runP get_trade_bars_data
    refine (opTemplate_error_iff _ _ _ _).mpr (Or.inr ⟨[s], ?_, by simp, ?_⟩)
    · rw [hpair]
    · rw [hpair]
      unfold accumLoop
      rw [mBind_of_error hstep]
  · intro df hdf hresp
    unfold runP get_trade_bars_data at hdf
    rcases opTemplate_ok_some _ _ _ _ hdf with ⟨valid2, hv2, hne, hbody⟩
    rw [hpair] at hv2 hbody
    dsimp only at hv2 hbody
    injection hv2 with hv3
    subst hv3
    rcases mBind_snd_ok hbody with ⟨d, eff2, hsp, hrest⟩
    have hstep2 : (barsStep net bucket s
        { urls := [refDataUrl], prints := [] }).2 = .ok d := by
      rw [hsp]
    rcases barsStep_ok hstep2 with ⟨raws, hraws, hdrows⟩
    have hdf2 : df = emptyDF.appendDF d := by
      simpa [accumLoop, mPure] using hrest.symm
    have hlen : raws.length = xs.length := by
      unfold chartRawRows rawRows at hraws
      rw [hresp] at hraws
      dsimp only at hraws
      unfold jsonNormalizeRows at hraws
      exact mapME_ok_length hraws
    constructor
    · rw [hdf2]
      show ([] ++ d.rows).length = xs.length
      rw [hdrows]
      simp [hlen]
    · intro r hr
      rw [hdf2] at hr
      have hr2 : r ∈ d.rows := by
        simpa [DF.appendDF, emptyDF] using hr
      rw [hdrows] at hr2
      rcases List.mem_map.mp hr2 with ⟨raw, _, hh⟩
      rw [← hh]
      exact lookupField_rowSetVal_self raw "symbol" (.str s)

/-- Witness for C7: on the demo network with request [AAPL, MSFT] only
AAPL validates, and the bars call for the 1y bucket issues exactly the
reference fetch plus one chart GET, returning two tagged rows. -/
theorem C7_witness :
    (runP (get_trade_bars_data netDemo ["AAPL", "MSFT"] "1y")).1.urls
        = [refDataUrl, chartUrl "AAPL" "1y"] ∧
    (netDemo (chartUrl "AAPL" "1y") = .error (.transport "x") →
      (runP (get_trade_bars_data netDemo ["AAPL", "MSFT"] "1y")).2
        = .error (.transport "x")) ∧
    (∀ df, (runP (get_trade_bars_data netDemo ["AAPL", "MSFT"] "1y")).2
        = .ok (some df) →
       netDemo (chartUrl "AAPL" "1y")
         = .ok (.arr [.obj [("date", .str "2017-07-13"), ("close", .num 100)],
                      .obj [("date", .str "2017-07-14"),
                            ("close", .num 101)]]) →
       df.rows.length = 2 ∧
       ∀ r ∈ df.rows, lookupField r "symbol" = some (.str "AAPL")) :=
  C7_bars_single_get netDemo ["AAPL", "MSFT"] "AAPL" "1y" (.transport "x")
    [.obj [("date", .str "2017-07-13"), ("close", .num 100)],
     .obj [("date", .str "2017-07-14"), ("close", .num 101)]] (by rfl)
